import Mathlib

/-!
Shallow embedding of the milky-way catalog normalization pipeline.

The Python sources are module-level scripts; we embed their pure cores:

* `clean_text` (two variants: `final_complete_parser.py` and
  `fix_everything_properly.py`) over `List Char`;
* `parse_distance` (same two variants), with Python `float(...)`
  failures modelled as `Except.error ()` (an uncaught `ValueError`);
* `generate_stellar_properties`, `generate_random_position`,
  `ra_dec_to_xyz` over `ℝ`, with each `random.uniform(a, b)` call
  modelled as `a + (b - a) * u` for an explicit draw `u`;
* the row-processing state machine of `final_complete_parser.py`
  (system grouping, companion mapping, special aliases, renames,
  Sol insertion, distance sort);
* the procedural fill loop of `robust_star_parser.py` and the
  companion-mapping writer of `parse_all_1421_stars.py`.

Python floats are modelled as exact rationals/reals, `random` draws as
an explicit stream `gen : ℕ → ℝ`, and Python's stable `list.sort` as
`List.insertionSort` (which is stable for the relation `key a ≤ key b`).
-/

namespace MilkyWay

open scoped Classical

/-! ### Character-level text utilities -/

/-- Whitespace class used by Python's `\s` regex and `str.strip`
(ASCII part, which is all the catalog contains). -/
def pyWS (c : Char) : Bool :=
  c == ' ' || c == '\t' || c == '\n' || c == '\r' || c == '\x0b' || c == '\x0c'

/-- Does `l` start with the pattern `pat`? -/
def startsWithChars : List Char → List Char → Bool
  | [], _ => true
  | _ :: _, [] => false
  | p :: ps, c :: cs => p == c && startsWithChars ps cs

/-- Does `l` contain `pat` as a contiguous substring? -/
def hasSub (pat : List Char) : List Char → Bool
  | [] => pat.isEmpty
  | c :: cs => startsWithChars pat (c :: cs) || hasSub pat cs

/-- Fuel-indexed worker for `replaceSub`; fuel is consumed one character
per step so `l.length` fuel always suffices. -/
def replaceSubFuel (pat rep : List Char) : ℕ → List Char → List Char
  | 0, l => l
  | _ + 1, [] => []
  | fuel + 1, c :: cs =>
    if !pat.isEmpty && startsWithChars pat (c :: cs) then
      rep ++ replaceSubFuel pat rep fuel (List.drop (pat.length - 1) cs)
    else
      c :: replaceSubFuel pat rep fuel cs

/-- Python `str.replace(pat, rep)`: non-overlapping, left to right. -/
def replaceSub (pat rep l : List Char) : List Char :=
  replaceSubFuel pat rep l.length l

/-- Worker for `collapseWS`; the flag records whether the previous
character was whitespace (already emitted as a single space). -/
def collapseWSAux : Bool → List Char → List Char
  | _, [] => []
  | prevWS, c :: cs =>
    if pyWS c then
      if prevWS then collapseWSAux true cs else ' ' :: collapseWSAux true cs
    else
      c :: collapseWSAux false cs

/-- Python `re.sub(r"\s+", " ", text)`. -/
def collapseWS (l : List Char) : List Char :=
  collapseWSAux false l

/-- Python `str.strip()`. -/
def stripWS (l : List Char) : List Char :=
  ((l.dropWhile pyWS).reverse.dropWhile pyWS).reverse

/-- The `clean_text` of `final_complete_parser.py`: the fixed sequence of
single-character replacements, whitespace collapse, strip. -/
def clean_text_fc (s : String) : String :=
  if s = "" then s else
  String.mk (stripWS (collapseWS
    (replaceSub ['"'] []
      (replaceSub ['$'] []
        (replaceSub ['—'] ['-']
          (replaceSub ['–'] ['-']
            (replaceSub ['±'] [' ', '+', '/', '-', ' ']
              (replaceSub ['°'] [' ', 'd', 'e', 'g', 'r', 'e', 'e', 's', ' ']
                (replaceSub ['�'] [' '] s.data)))))))))

/-- The `clean_text` of `fix_everything_properly.py`: its replacement
table applied in insertion order, whitespace collapse, strip. -/
def clean_text_fix (s : String) : String :=
  if s = "" then s else
  String.mk (stripWS (collapseWS
    (replaceSub [' ', ' '] [' ']
      (replaceSub ['"'] []
        (replaceSub ['&'] []
          (replaceSub ['$'] []
            (replaceSub ['—'] ['-']
              (replaceSub ['–'] ['-']
                (replaceSub ['±'] ['+', '/', '-']
                  (replaceSub ['°'] []
                    (replaceSub ['�'] [' '] s.data)))))))))))

/-! ### Numeric token extraction and Python float parsing -/

/-- Character class of the regex `[\d.]`. -/
def isNumChar (c : Char) : Bool :=
  c.isDigit || c == '.'

/-- Leftmost maximal run of `[\d.]` characters: the group captured by
`re.search(r"([\d.]+)", s)`, or `none` when the regex does not match. -/
def firstNumToken : List Char → Option (List Char)
  | [] => none
  | c :: cs =>
    if isNumChar c then some (c :: cs.takeWhile isNumChar) else firstNumToken cs

/-- Digits to a natural number (callers only pass digit characters). -/
def digitsToNat (l : List Char) : ℕ :=
  l.foldl (fun n c => 10 * n + (c.toNat - 48)) 0

/-- Exact nonnegative decimal `num / 10 ^ exp`: the value of a Python
float literal from the catalog. Kept unnormalized so that kernel
reduction works (rational normalization is irreducible). -/
structure Dec where
  num : ℕ
  exp : ℕ

/-- Rational value of an exact decimal. -/
def Dec.toRat (a : Dec) : ℚ := (a.num : ℚ) / 10 ^ a.exp

/-- Exact decimal multiplication. -/
def Dec.mul (a b : Dec) : Dec := ⟨a.num * b.num, a.exp + b.exp⟩

/-- Strict comparison of exact decimals by cross multiplication. -/
def Dec.blt (a b : Dec) : Bool := a.num * 10 ^ b.exp < b.num * 10 ^ a.exp

/-- Non-strict comparison of exact decimals by cross multiplication. -/
def Dec.ble (a b : Dec) : Bool := a.num * 10 ^ b.exp ≤ b.num * 10 ^ a.exp

/-- Python `float(token)` for a token of digits and dots: defined when the
token has at least one digit and at most one dot, `none` (a `ValueError`)
otherwise. -/
def pyFloat (t : List Char) : Option Dec :=
  if t.isEmpty then none
  else if t.count '.' == 0 then some ⟨digitsToNat t, 0⟩
  else if t.count '.' == 1 then
    let ip := t.takeWhile (fun c => c != '.')
    let fp := (t.dropWhile (fun c => c != '.')).drop 1
    if ip.isEmpty && fp.isEmpty then none
    else some ⟨digitsToNat ip * 10 ^ fp.length + digitsToNat fp, fp.length⟩
  else none

/-- Light-years per parsec as an exact decimal (`3.26156`). -/
def lyPerPcDec : Dec := ⟨326156, 5⟩

/-- Light-years per parsec, as the sources hard-code it. -/
def lyPerPc : ℚ := 326156 / 100000

/-- The `parse_distance` of `final_complete_parser.py`: `None` on
empty/`"N/A"` input or when no numeric token matches; values below 50 are
taken as parsecs and converted; `Except.error` models the uncaught
`ValueError` that `float(...)` raises on a dots-only or multi-dot token. -/
def parse_distance_fc (s : String) : Except Unit (Option Dec) :=
  if s = "" ∨ s = "N/A" then .ok none
  else
    match firstNumToken s.data with
    | none => .ok none
    | some t =>
      match pyFloat t with
      | none => .error ()
      | some v => .ok (some (if v.blt ⟨50, 0⟩ then v.mul lyPerPcDec else v))

/-- First numeric token of the cleaned string together with its value, as
used by the `parse_distance` of `fix_everything_properly.py`. -/
def distTokenValue (s : String) : Option Dec :=
  (firstNumToken (clean_text_fix s).data).bind pyFloat

/-- The explicit unit marker consulted by `fix_everything_properly.py`:
a `±` or plus-slash-minus substring, checked on the cleaned string. -/
def hasPMmarker (s : String) : Bool :=
  hasSub ['±'] (clean_text_fix s).data || hasSub ['+', '/', '-'] (clean_text_fix s).data

/-- The `parse_distance` of `fix_everything_properly.py`: cleans the
string, extracts the first numeric token, then applies the three-branch
unit heuristic (tiny values kept, values below 25 converted from parsecs,
larger values converted only on a plus-minus marker). -/
def parse_distance_fix (s : String) : Except Unit (Option Dec) :=
  if s = "" ∨ s = "N/A" then .ok none
  else
    match firstNumToken (clean_text_fix s).data with
    | none => .ok none
    | some t =>
      match pyFloat t with
      | none => .error ()
      | some v =>
        .ok (some (
          if v.blt ⟨1, 3⟩ then v
          else if v.blt ⟨25, 0⟩ then v.mul lyPerPcDec
          else if hasPMmarker s then v.mul lyPerPcDec
          else v))

/-! ### Stellar property synthesis (`generate_stellar_properties`) -/

/-- One row of the `spectral_data` table: inclusive (min, max) ranges for
mass, temperature, luminosity and absolute magnitude. -/
structure SpecRange where
  massLo : ℚ
  massHi : ℚ
  tempLo : ℤ
  tempHi : ℤ
  lumLo : ℚ
  lumHi : ℚ
  magLo : ℚ
  magHi : ℚ

/-- The `M` row of the table (also the fallback spectral type). -/
def rowM : SpecRange := ⟨0.08, 0.45, 2400, 3700, 0.0001, 0.08, 9.0, 17.0⟩

/-- The `spectral_data` dict of `final_complete_parser.py`. -/
def spectral_data : Char → Option SpecRange
  | 'O' => some ⟨15, 90, 30000, 50000, 30000, 1000000, -6.5, -4.0⟩
  | 'B' => some ⟨2.1, 16, 10000, 30000, 25, 30000, -4.0, 1.0⟩
  | 'A' => some ⟨1.4, 2.1, 7500, 10000, 5, 25, 1.0, 2.5⟩
  | 'F' => some ⟨1.04, 1.4, 6000, 7500, 1.5, 5, 2.5, 4.5⟩
  | 'G' => some ⟨0.8, 1.04, 5200, 6000, 0.6, 1.5, 4.5, 6.0⟩
  | 'K' => some ⟨0.45, 0.8, 3700, 5200, 0.08, 0.6, 6.0, 9.0⟩
  | 'M' => some rowM
  | 'L' => some ⟨0.06, 0.08, 1300, 2400, 0.00001, 0.0001, 17.0, 20.0⟩
  | 'T' => some ⟨0.02, 0.06, 600, 1300, 0.000001, 0.00001, 20.0, 25.0⟩
  | 'Y' => some ⟨0.01, 0.02, 300, 600, 0.0000001, 0.000001, 25.0, 30.0⟩
  | 'D' => some ⟨0.5, 1.4, 8000, 40000, 0.0001, 0.01, 11.0, 16.0⟩
  | _ => none

/-- Default applied at the top of `generate_stellar_properties`:
`if not stellar_class: stellar_class = "M5V"`. -/
def effClass (s : String) : String :=
  if s = "" then "M5V" else s

/-- First character of the uppercased class found in `spectral_data`,
defaulting to `M`: the spectral-type selection loop. -/
def spectralTypeOf (s : String) : Char :=
  ((s.data.map Char.toUpper).find? fun c => (spectral_data c).isSome).getD 'M'

/-- The table row the code looks up for class string `s` (the lookup never
misses, see `spectral_data_spectralTypeOf`). -/
def specRangeOf (s : String) : SpecRange :=
  (spectral_data (spectralTypeOf (effClass s))).getD rowM

/-- The group captured by `re.search(r"(\d+\.?\d*)", s)`: digits, an
optional dot, then digits, starting at the leftmost digit. -/
def firstSubclassToken : List Char → Option (List Char)
  | [] => none
  | c :: cs =>
    if c.isDigit then
      let ds := cs.takeWhile Char.isDigit
      let rest := cs.drop ds.length
      match rest with
      | '.' :: r2 => some (c :: ds ++ '.' :: r2.takeWhile Char.isDigit)
      | _ => some (c :: ds)
    else firstSubclassToken cs

/-- Numeric subclass extracted from the class string (`float` of the
first `\d+\.?\d*` match); such a token always parses. -/
def subclassOf (s : String) : Option Dec :=
  (firstSubclassToken s.data).bind pyFloat

/-- Python `int(x)`: truncation toward zero. -/
noncomputable def pyInt (x : ℝ) : ℤ :=
  if 0 ≤ x then ⌊x⌋ else -⌊-x⌋

/-- The `generate_stellar_properties` of `final_complete_parser.py`.
`u1 u2 u3 u4` are the four `random.uniform` draws (each scaled into its
range as `lo + (hi - lo) * u`); when a numeric subclass of value at most 9
is present the draws are discarded and replaced by the deterministic
interpolation with `factor = (9 - subclass) / 9`. Returns
(mass, temperature, luminosity, absolute magnitude). -/
noncomputable def generate_stellar_properties
    (stellar_class : String) (u1 u2 u3 u4 : ℝ) : ℝ × ℤ × ℝ × ℝ :=
  let sc := effClass stellar_class
  let data := specRangeOf stellar_class
  let mass0 : ℝ := (data.massLo : ℝ) + ((data.massHi : ℝ) - (data.massLo : ℝ)) * u1
  let temp0 : ℤ := pyInt ((data.tempLo : ℝ) + ((data.tempHi : ℝ) - (data.tempLo : ℝ)) * u2)
  let lum0 : ℝ := (data.lumLo : ℝ) + ((data.lumHi : ℝ) - (data.lumLo : ℝ)) * u3
  let mag0 : ℝ := (data.magLo : ℝ) + ((data.magHi : ℝ) - (data.magLo : ℝ)) * u4
  match subclassOf sc with
  | some sub =>
    if sub.ble ⟨9, 0⟩ then
      let f : ℝ := (9 - ((sub.toRat : ℚ) : ℝ)) / 9
      ( (data.massLo : ℝ) + ((data.massHi : ℝ) - (data.massLo : ℝ)) * f,
        pyInt ((data.tempLo : ℝ) + ((data.tempHi : ℝ) - (data.tempLo : ℝ)) * f),
        (data.lumLo : ℝ) * ((data.lumHi : ℝ) / (data.lumLo : ℝ)) ^ f,
        (data.magHi : ℝ) + ((data.magLo : ℝ) - (data.magHi : ℝ)) * f )
    else (mass0, temp0, lum0, mag0)
  | none => (mass0, temp0, lum0, mag0)

/-! ### Positions -/

/-- The `generate_random_position` of `final_complete_parser.py`:
`theta = uniform(0, 2*pi)` (draw `u1`), `phi = acos(1 - 2*random())`
(draw `u2`), then the spherical-to-Cartesian formulas. -/
noncomputable def generate_random_position (distance u1 u2 : ℝ) : ℝ × ℝ × ℝ :=
  let theta := 2 * Real.pi * u1
  let phi := Real.arccos (1 - 2 * u2)
  ( distance * Real.sin phi * Real.cos theta,
    distance * Real.sin phi * Real.sin theta,
    distance * Real.cos phi )

/-- The `ra_dec_to_xyz` of `complete_star_parser.py`. -/
noncomputable def ra_dec_to_xyz (ra_hours dec_degrees distance_ly : ℝ) : ℝ × ℝ × ℝ :=
  let ra_radians := ra_hours * 15.0 * Real.pi / 180.0
  let dec_radians := dec_degrees * Real.pi / 180.0
  ( distance_ly * Real.cos dec_radians * Real.cos ra_radians,
    distance_ly * Real.cos dec_radians * Real.sin ra_radians,
    distance_ly * Real.sin dec_radians )

/-- Python `round(x, k)` (half-way behavior idealized to round-half-up;
no claim depends on exact half-way cases). -/
noncomputable def roundTo (k : ℕ) (x : ℝ) : ℝ :=
  ((round (x * 10 ^ k) : ℤ) : ℝ) / 10 ^ k

/-! ### The catalog pipeline of `final_complete_parser.py` -/

/-- One output record (`star_data` dict). -/
structure Star where
  name : String
  x : ℝ
  y : ℝ
  z : ℝ
  stellar_class : String
  mass : ℝ
  temperature : ℤ
  luminosity : ℝ
  absolute_magnitude : ℝ

/-- Python `line.split(",")` (the simple split used by
`final_complete_parser.py`). -/
def splitComma : List Char → List (List Char)
  | [] => [[]]
  | c :: cs =>
    let ps := splitComma cs
    if c == ',' then [] :: ps
    else (c :: ps.headD []) :: ps.tail

/-- Python `str.endswith(suffix)`. -/
def pyEndsWith (suf s : String) : Bool :=
  startsWithChars suf.data.reverse s.data.reverse

/-- The bare companion-letter designations recognized by
`final_complete_parser.py`. -/
def letterList : List String :=
  ["A", "B", "C", "D", "Ba", "Bb", "Ab", "Ca", "Cb", "Da", "Db"]

/-- Insertion-ordered dict assignment `m[k] = v`: overwrite in place if
the key exists, else append. -/
def dictSet (m : List (String × String)) (k v : String) : List (String × String) :=
  if m.any (fun p => p.1 == k) then
    m.map (fun p => if p.1 == k then (k, v) else p)
  else m ++ [(k, v)]

/-- The mutable loop state of the module-level row loop. -/
structure LoopState where
  stars : List Star
  mapping : List (String × String)
  current_system : Option String
  current_system_distance : Option Dec
  primary : Option String
  system_stars : List Star
  rng : ℕ

/-- Initial loop state. -/
def initState : LoopState :=
  ⟨[], [], none, none, none, [], 0⟩

/-- Closing an open system block: map every star of the block other than
the tracked primary to the primary (`if system_stars and
primary_star_name:`). -/
def flushSystem (st : LoopState) : List (String × String) :=
  match st.primary with
  | none => st.mapping
  | some p =>
    if st.system_stars.isEmpty then st.mapping
    else st.system_stars.foldl
      (fun m s => if s.name ≠ p then dictSet m s.name p else m) st.mapping

/-- One iteration of the row loop of `final_complete_parser.py` (lines
121-200): skip blank lines and short rows, open a new system block on a
changed system field, rewrite bare companion letters, resolve the
distance (falling back to the system distance), filter rows beyond 80 ly,
generate the position and properties from the draw stream `gen`, and
track the primary star. -/
noncomputable def processLine (gen : ℕ → ℝ) (st : LoopState) (line : String) :
    Except Unit LoopState :=
  if stripWS line.data = [] then .ok st
  else
    let parts := (splitComma line.data).map String.mk
    if parts.length < 3 then .ok st
    else
      let system := clean_text_fc (parts.getD 0 "")
      let name0 := clean_text_fc (parts.getD 1 "")
      let distance_str := parts.getD 2 ""
      let stellar_class := if parts.length > 4 then clean_text_fc (parts.getD 4 "") else "M5V"
      do
        let st1 ←
          if system ≠ "" ∧ st.current_system ≠ some system then do
            let m := flushSystem st
            let d ← parse_distance_fc distance_str
            pure { st with mapping := m, current_system := some system,
                           current_system_distance := d, primary := none,
                           system_stars := [] }
          else pure st
        if name0 = "" then pure st1
        else
          let name :=
            if letterList.contains name0 then
              match st1.current_system with
              | some cs => cs ++ " " ++ name0
              | none => name0
            else name0
          let distance ←
            if distance_str ≠ "" ∧ stripWS distance_str.data ≠ [] then
              parse_distance_fc distance_str
            else pure st1.current_system_distance
          match distance with
          | none => pure st1
          | some d =>
            if Dec.blt ⟨80, 0⟩ d then pure st1
            else
              let pos := generate_random_position ((d.toRat : ℚ) : ℝ) (gen st1.rng) (gen (st1.rng + 1))
              let props := generate_stellar_properties stellar_class
                (gen (st1.rng + 2)) (gen (st1.rng + 3)) (gen (st1.rng + 4)) (gen (st1.rng + 5))
              let star : Star :=
                ⟨name, roundTo 6 pos.1, roundTo 6 pos.2.1, roundTo 6 pos.2.2,
                 stellar_class, roundTo 3 props.1, props.2.1,
                 roundTo 6 props.2.2.1, roundTo 2 props.2.2.2⟩
              let primary1 :=
                if st1.primary = none ∨ name0 = "A" ∨ pyEndsWith " A" name then some name
                else st1.primary
              pure { st1 with stars := st1.stars ++ [star],
                              system_stars := st1.system_stars ++ [star],
                              primary := primary1, rng := st1.rng + 6 }

/-- The whole row loop: line 0 is the header and is skipped. -/
noncomputable def runLoop (gen : ℕ → ℝ) (lines : List String) : Except Unit LoopState :=
  (lines.drop 1).foldlM (processLine gen) initState

/-- The `special_companions` table. -/
def special_companions : List (String × String) :=
  [ ("Proxima Centauri", "Alpha Centauri A"),
    ("Proxima Centauri (C, V645 Centauri)", "Alpha Centauri A"),
    ("Rigil Kentaurus (A)", "Alpha Centauri A"),
    ("Toliman (B)", "Alpha Centauri A") ]

/-- Applying the special companion mappings to every parsed star. -/
def applySpecials (stars : List Star) (m : List (String × String)) :
    List (String × String) :=
  stars.foldl
    (fun m s =>
      match special_companions.lookup s.name with
      | some v => if s.name ≠ v then dictSet m s.name v else m
      | none => m) m

/-- The rename loop: `Rigil Kentaurus (A)` and `Toliman (B)` get their
canonical Alpha Centauri names, the latter also forcing a mapping entry. -/
def applyRenames (stars : List Star) (m : List (String × String)) :
    List Star × List (String × String) :=
  stars.foldl
    (fun acc s =>
      if s.name = "Rigil Kentaurus (A)" then
        (acc.1 ++ [{ s with name := "Alpha Centauri A" }], acc.2)
      else if s.name = "Toliman (B)" then
        (acc.1 ++ [{ s with name := "Alpha Centauri B" }],
         dictSet acc.2 "Alpha Centauri B" "Alpha Centauri A")
      else (acc.1 ++ [s], acc.2))
    (([] : List Star), m)

/-- The reference Sol record inserted when no parsed star is named Sol. -/
def solStar : Star :=
  ⟨"Sol", 0.0, 0.0, 0.0, "G2V", 1.0, 5778, 1.0, 4.83⟩

/-- Add Sol at the front if missing. -/
def addSol (stars : List Star) : List Star :=
  if stars.any (fun s => s.name == "Sol") then stars else solStar :: stars

/-- Euclidean distance of a record from the origin, the sort key. -/
noncomputable def distOrigin (s : Star) : ℝ :=
  Real.sqrt (s.x ^ 2 + s.y ^ 2 + s.z ^ 2)

/-- Python's stable `stars.sort(key=...)`, embedded as insertion sort on
the non-strict key comparison (a stable sort). -/
noncomputable def sortStars (l : List Star) : List Star :=
  l.insertionSort (fun a b => distOrigin a ≤ distOrigin b)

instance : IsTotal Star (fun a b => distOrigin a ≤ distOrigin b) :=
  ⟨fun a b => le_total (distOrigin a) (distOrigin b)⟩

instance : IsTrans Star (fun a b => distOrigin a ≤ distOrigin b) :=
  ⟨fun _ _ _ => le_trans⟩

/-- Everything after the row loop and before the Sol insertion: the final
system flush, the special companion mappings, and the renames. -/
def postLoop (st : LoopState) : List Star × List (String × String) :=
  let m := flushSystem st
  let m := applySpecials st.stars m
  applyRenames st.stars m

/-- The assembled output: sorted catalog and companion mapping. -/
noncomputable def runPipeline (gen : ℕ → ℝ) (lines : List String) :
    Except Unit (List Star × List (String × String)) :=
  (runLoop gen lines).map fun st =>
    let sm := postLoop st
    (sortStars (addSol sm.1), sm.2)

/-- Companion-mapping component of the pipeline output. -/
noncomputable def runMapping (gen : ℕ → ℝ) (lines : List String) :
    Except Unit (List (String × String)) :=
  (runPipeline gen lines).map Prod.snd

/-- Catalog component of the pipeline output. -/
noncomputable def runCatalog (gen : ℕ → ℝ) (lines : List String) :
    Except Unit (List Star) :=
  (runPipeline gen lines).map Prod.fst

/-- Names of the parsed records right before the Sol insertion. -/
noncomputable def postLoopNamesE (gen : ℕ → ℝ) (lines : List String) :
    Except Unit (List String) :=
  (runLoop gen lines).map fun st => (postLoop st).1.map Star.name

/-! ### Procedural fill loop of `robust_star_parser.py` -/

/-- Number of characters `0`-`9` shifted from a digit value. -/
def digitChar (n : ℕ) : Char :=
  Char.ofNat (48 + n)

/-- The weighted spectral-class choice of the fill loop, modelled as the
inverse-CDF of `random.choices` on the cumulative weights
`M:0.765, K:0.121, G:0.076, F:0.030, A:0.006, D:0.001, B:0.001`. -/
noncomputable def weightedSpectralType (w : ℝ) : Char :=
  if w < 0.765 then 'M'
  else if w < 0.886 then 'K'
  else if w < 0.962 then 'G'
  else if w < 0.992 then 'F'
  else if w < 0.998 then 'A'
  else if w < 0.999 then 'D'
  else 'B'

/-- Python `random.randint(0, 9)`, modelled as the inverse-CDF of a draw
`u` uniform in `[0,1)`. -/
noncomputable def randSubclass (u : ℝ) : ℕ :=
  min 9 (Int.toNat ⌊10 * u⌋)

/-- Radial distance drawn for the `i`-th filler star:
`random.random() ** 0.33 * 80` (exponent `0.33`, not a cube root). -/
noncomputable def fillerDistance (i : ℕ) (gen : ℕ → ℝ) : ℝ :=
  gen (9 * i) ^ (0.33 : ℝ) * 80

/-- One procedurally generated record of the fill loop of
`robust_star_parser.py` (nine draws per star, indexed from `9 * i`):
drawn distance, uniform-sphere direction, weighted spectral class with a
random subclass digit, and synthesized properties. -/
noncomputable def fillerStar (i : ℕ) (gen : ℕ → ℝ) : Star :=
  let distance := fillerDistance i gen
  let pos := generate_random_position distance (gen (9 * i + 1)) (gen (9 * i + 2))
  let ty := weightedSpectralType (gen (9 * i + 3))
  let sub := randSubclass (gen (9 * i + 4))
  let stellar_class :=
    if ty ≠ 'D' then String.mk [ty, digitChar sub, 'V'] else String.mk ['D', digitChar sub]
  let props := generate_stellar_properties stellar_class
    (gen (9 * i + 5)) (gen (9 * i + 6)) (gen (9 * i + 7)) (gen (9 * i + 8))
  ⟨"Star-" ++ Nat.repr i, roundTo 6 pos.1, roundTo 6 pos.2.1, roundTo 6 pos.2.2,
   stellar_class, roundTo 3 props.1, props.2.1,
   roundTo 6 props.2.2.1, roundTo 2 props.2.2.2⟩

/-- The fill loop `for i in range(len(stars), 1400)`: when fewer than 1400
real records were parsed, append filler records until exactly 1400. -/
noncomputable def proceduralFill (stars : List Star) (gen : ℕ → ℝ) : List Star :=
  if stars.length < 1400 then
    stars ++ (List.range (1400 - stars.length)).map fun k => fillerStar (stars.length + k) gen
  else stars

/-! ### Companion-mapping writer of `parse_all_1421_stars.py` -/

/-- Lexicographic strict comparison of character lists. -/
def charListLtB : List Char → List Char → Bool
  | [], [] => false
  | [], _ :: _ => true
  | _ :: _, [] => false
  | a :: as1, b :: bs1 =>
    if a < b then true else if b < a then false else charListLtB as1 bs1

/-- Lexicographic strict comparison of strings. -/
def strLtB (a b : String) : Bool :=
  charListLtB a.data b.data

/-- Python tuple comparison `(a1, a2) <= (b1, b2)` on string pairs, the
order used by `sorted(companion_mapping.items())`. -/
def pairLeB (a b : String × String) : Bool :=
  strLtB a.1 b.1 || (a.1 == b.1 && (strLtB a.2 b.2 || a.2 == b.2))

/-- The mapping writer of `parse_all_1421_stars.py`: iterate the mapping
entries in sorted order and keep only those whose companion and primary
both name a star of the final catalog. -/
def writeCompanionMapping (stars : List Star) (m : List (String × String)) :
    List (String × String) :=
  let star_names := stars.map Star.name
  (m.insertionSort fun a b => pairLeB a b = true).filter
    fun cp => star_names.contains cp.1 && star_names.contains cp.2

/-! ### Concrete inputs and claim predicates -/

/-- A constant draw stream (any concrete stream works for the name-level
facts, which never depend on the draws). -/
noncomputable def genZero : ℕ → ℝ := fun _ => 0

/-- Header-only input: no data rows. -/
def linesHeaderOnly : List String := ["System,Name,Distance,Coordinates,Class"]

/-- The Alpha Centauri scenario: a primary row `A` followed by a
companion row `B` in the same system block. -/
def c4lines : List String :=
  [ "System,Name,Distance,Coordinates,Class",
    "Alpha Centauri,A,1.34,,G2V",
    "Alpha Centauri,B,1.34,,K1V" ]

/-- An input whose raw rows already contain two stars named `Sol`. -/
def linesTwoSol : List String :=
  [ "System,Name,Distance,Coordinates,Class",
    ",Sol,1,,G2V",
    ",Sol,1,,G2V" ]

/-- The Sol invariant claimed for every input: the assembled catalog has
exactly one record named `Sol`, and every record named `Sol` sits at the
origin. -/
def solInvariantHolds (res : Except Unit (List Star)) : Prop :=
  ∀ cat, res = .ok cat →
    (cat.filter fun s => s.name == "Sol").length = 1 ∧
    ∀ s ∈ cat, s.name = "Sol" → s.x = 0 ∧ s.y = 0 ∧ s.z = 0

/-- Well-formedness facts about a `spectral_data` row, used for the
range-containment proofs. -/
def SpecFacts (r : SpecRange) : Prop :=
  r.massLo ≤ r.massHi ∧ r.tempLo ≤ r.tempHi ∧ 0 ≤ r.tempLo ∧
    0 < r.lumLo ∧ r.lumLo ≤ r.lumHi ∧ r.magLo ≤ r.magHi

/-- Two-record catalog used to exercise the mapping writer. -/
def starPrimary : Star := ⟨"Alpha Centauri A", 1, 0, 0, "G2V", 1, 5778, 1, 4.3⟩

/-- Companion record used to exercise the mapping writer. -/
def starCompanion : Star := ⟨"Alpha Centauri B", 0, 1, 0, "K1V", 1, 5260, 1, 5.7⟩

/-! ## Theorems -/

/-! ### Exact-decimal bridge lemmas -/

theorem Dec.pow_pos_aux (e : ℕ) : (0 : ℚ) < 10 ^ e :=
  pow_pos (by norm_num) e

theorem Dec.blt_iff (a b : Dec) : a.blt b = true ↔ a.toRat < b.toRat := by
  unfold Dec.blt Dec.toRat
  rw [decide_eq_true_iff, div_lt_div_iff₀ (Dec.pow_pos_aux _) (Dec.pow_pos_aux _)]
  exact Iff.symm (by exact_mod_cast Iff.rfl)

theorem Dec.ble_iff (a b : Dec) : a.ble b = true ↔ a.toRat ≤ b.toRat := by
  unfold Dec.ble Dec.toRat
  rw [decide_eq_true_iff, div_le_div_iff₀ (Dec.pow_pos_aux _) (Dec.pow_pos_aux _)]
  exact Iff.symm (by exact_mod_cast Iff.rfl)

theorem Dec.toRat_mul (a b : Dec) : (a.mul b).toRat = a.toRat * b.toRat := by
  unfold Dec.mul Dec.toRat
  push_cast
  rw [pow_add]
  ring

theorem Dec.toRat_nonneg (a : Dec) : 0 ≤ a.toRat := by
  unfold Dec.toRat
  positivity

theorem Dec.toRat_mk (n e : ℕ) : Dec.toRat ⟨n, e⟩ = (n : ℚ) / 10 ^ e := rfl

theorem lyPerPcDec_toRat : lyPerPcDec.toRat = lyPerPc := by
  norm_num [lyPerPcDec, Dec.toRat_mk, lyPerPc]

/-! ### C3: totality of the distance resolver -/

/-- C3 (amended): `parse_distance` (both variants) returns `None` on
empty or `"N/A"` input and on every input without a numeric token, but it
is not total: when the extracted token is dots-only or has several dots,
`float(...)` raises an uncaught `ValueError` (modelled as `.error ()`). -/
theorem parse_distance_none_total :
    (parse_distance_fc "" = .ok none ∧ parse_distance_fc "N/A" = .ok none ∧
      parse_distance_fix "" = .ok none ∧ parse_distance_fix "N/A" = .ok none) ∧
    (∀ s, firstNumToken s.data = none → parse_distance_fc s = .ok none) ∧
    (∀ s, firstNumToken (clean_text_fix s).data = none → parse_distance_fix s = .ok none) ∧
    (∀ s t, firstNumToken s.data = some t → pyFloat t = none →
      parse_distance_fc s = .error ()) ∧
    (∀ s t, firstNumToken (clean_text_fix s).data = some t → pyFloat t = none →
      parse_distance_fix s = .error ()) := by
  refine ⟨⟨rfl, rfl, rfl, rfl⟩, ?_, ?_, ?_, ?_⟩
  · intro s h
    by_cases hs : s = "" ∨ s = "N/A" <;> simp [parse_distance_fc, hs, h]
  · intro s h
    by_cases hs : s = "" ∨ s = "N/A" <;> simp [parse_distance_fix, hs, h]
  · intro s t ht hf
    by_cases hs : s = "" ∨ s = "N/A"
    · exfalso
      rcases hs with hs | hs <;> rw [hs] at ht
      · exact Option.noConfusion ((rfl : firstNumToken "".data = none) ▸ ht)
      · exact Option.noConfusion ((rfl : firstNumToken "N/A".data = none) ▸ ht)
    · simp [parse_distance_fc, hs, ht, hf]
  · intro s t ht hf
    by_cases hs : s = "" ∨ s = "N/A"
    · exfalso
      rcases hs with hs | hs <;> rw [hs] at ht
      · exact Option.noConfusion ((rfl : firstNumToken (clean_text_fix "").data = none) ▸ ht)
      · exact Option.noConfusion
          ((rfl : firstNumToken (clean_text_fix "N/A").data = none) ▸ ht)
    · simp [parse_distance_fix, hs, ht, hf]

/-- C3 witness: concrete instances of the no-token and bad-token cases. -/
theorem parse_distance_none_total_witness :
    (firstNumToken ("abc").data = none ∧ parse_distance_fc "abc" = .ok none) ∧
    (firstNumToken (clean_text_fix "abc").data = none ∧
      parse_distance_fix "abc" = .ok none) ∧
    (firstNumToken (".,").data = some ['.'] ∧ pyFloat ['.'] = none ∧
      parse_distance_fc ".," = .error ()) :=
  ⟨⟨rfl, parse_distance_none_total.2.1 "abc" rfl⟩,
    ⟨rfl, parse_distance_none_total.2.2.1 "abc" rfl⟩,
    ⟨rfl, rfl, parse_distance_none_total.2.2.2.1 ".," ['.'] rfl rfl⟩⟩

/-- C3 counterexample: on the input `"."` the regex extracts the token
`"."`, and `float(".")` raises, so neither variant is total: the claim
that the resolver never raises is false. -/
theorem parse_distance_dot_cex :
    parse_distance_fix "." = .error () ∧ parse_distance_fc "." = .error () :=
  ⟨rfl, rfl⟩

/-! ### C2: unit-disambiguation branches of the distance resolver -/

/-- C2 (amended): for a first extracted numeric token of value `v`, the
faithful variant (`fix_everything_properly.py`) returns `v` unchanged
below `0.001`, converts by `3.26156` on `[0.001, 25)`, and for larger
values converts exactly when the cleaned string contains a `±` or
plus-slash-minus marker — a textual `parsec`/`pc` marker is not
consulted. -/
theorem parse_distance_fix_branches (s : String) (v : Dec)
    (h : distTokenValue s = some v) :
    ∃ r : Dec, parse_distance_fix s = .ok (some r) ∧
      (v.toRat < 1 / 1000 → r.toRat = v.toRat) ∧
      (1 / 1000 ≤ v.toRat → v.toRat < 25 → r.toRat = v.toRat * lyPerPc) ∧
      (25 ≤ v.toRat → hasPMmarker s = true → r.toRat = v.toRat * lyPerPc) ∧
      (25 ≤ v.toRat → hasPMmarker s = false → r.toRat = v.toRat) := by
  by_cases hs : s = "" ∨ s = "N/A"
  · exfalso
    rcases hs with hs | hs <;> rw [hs] at h
    · exact Option.noConfusion ((rfl : distTokenValue "" = none) ▸ h)
    · exact Option.noConfusion ((rfl : distTokenValue "N/A" = none) ▸ h)
  · obtain ⟨t, ht, hv⟩ := Option.bind_eq_some.mp h
    have e1 : Dec.toRat ⟨1, 3⟩ = 1 / 1000 := by norm_num [Dec.toRat_mk]
    have e2 : Dec.toRat ⟨25, 0⟩ = 25 := by norm_num [Dec.toRat_mk]
    refine ⟨(if v.blt ⟨1, 3⟩ then v
             else if v.blt ⟨25, 0⟩ then v.mul lyPerPcDec
             else if hasPMmarker s then v.mul lyPerPcDec
             else v), ?_, ?_, ?_, ?_, ?_⟩
    · simp [parse_distance_fix, hs, ht, hv]
    · intro h1
      have b1 : v.blt ⟨1, 3⟩ = true := by rw [Dec.blt_iff, e1]; exact h1
      simp [b1]
    · intro h1 h2
      have b1 : ¬ v.blt ⟨1, 3⟩ = true := by rw [Dec.blt_iff, e1]; linarith
      have b2 : v.blt ⟨25, 0⟩ = true := by rw [Dec.blt_iff, e2]; exact h2
      simp [b1, b2, Dec.toRat_mul, lyPerPcDec_toRat]
    · intro h1 h2
      have b1 : ¬ v.blt ⟨1, 3⟩ = true := by rw [Dec.blt_iff, e1]; linarith
      have b2 : ¬ v.blt ⟨25, 0⟩ = true := by rw [Dec.blt_iff, e2]; linarith
      simp [b1, b2, h2, Dec.toRat_mul, lyPerPcDec_toRat]
    · intro h1 h2
      have b1 : ¬ v.blt ⟨1, 3⟩ = true := by rw [Dec.blt_iff, e1]; linarith
      have b2 : ¬ v.blt ⟨25, 0⟩ = true := by rw [Dec.blt_iff, e2]; linarith
      simp [b1, b2, h2]

/-- C2 witness: the scenario value `4.24` sits in the parsec branch. -/
theorem parse_distance_fix_branches_witness :
    distTokenValue "4.24" = some ⟨424, 2⟩ ∧
    (∃ r : Dec, parse_distance_fix "4.24" = .ok (some r) ∧
      (Dec.toRat ⟨424, 2⟩ < 1 / 1000 → r.toRat = Dec.toRat ⟨424, 2⟩) ∧
      (1 / 1000 ≤ Dec.toRat ⟨424, 2⟩ → Dec.toRat ⟨424, 2⟩ < 25 →
        r.toRat = Dec.toRat ⟨424, 2⟩ * lyPerPc) ∧
      (25 ≤ Dec.toRat ⟨424, 2⟩ → hasPMmarker "4.24" = true →
        r.toRat = Dec.toRat ⟨424, 2⟩ * lyPerPc) ∧
      (25 ≤ Dec.toRat ⟨424, 2⟩ → hasPMmarker "4.24" = false →
        r.toRat = Dec.toRat ⟨424, 2⟩)) :=
  ⟨rfl, parse_distance_fix_branches "4.24" ⟨424, 2⟩ rfl⟩

/-- C2 counterexample: `"30 parsec"` carries an explicit textual parsec
marker, yet the resolver returns 30 unconverted — the claim that larger
values are converted when a parsec marker appears is false (only the
plus-minus marker is consulted). -/
theorem parsec_marker_cex :
    hasSub ['p', 'a', 'r', 's', 'e', 'c'] ("30 parsec").data = true ∧
    parse_distance_fix "30 parsec" = .ok (some ⟨30, 0⟩) ∧
    Dec.toRat ⟨30, 0⟩ ≠ Dec.toRat ⟨30, 0⟩ * lyPerPc :=
  ⟨rfl, rfl, by norm_num [Dec.toRat_mk, lyPerPc]⟩

/-! ### C9: positions lie at the requested radius -/

/-- C9: in exact real arithmetic, both `ra_dec_to_xyz` and the
random-position fallback produce a point whose Euclidean norm is exactly
the requested distance `d ≥ 0`, for every right ascension, declination
and every pair of draws. -/
theorem position_norm (d : ℝ) (hd : 0 ≤ d) :
    (∀ ra dec : ℝ,
      Real.sqrt ((ra_dec_to_xyz ra dec d).1 ^ 2 + (ra_dec_to_xyz ra dec d).2.1 ^ 2 +
        (ra_dec_to_xyz ra dec d).2.2 ^ 2) = d) ∧
    (∀ u1 u2 : ℝ,
      Real.sqrt ((generate_random_position d u1 u2).1 ^ 2 +
        (generate_random_position d u1 u2).2.1 ^ 2 +
        (generate_random_position d u1 u2).2.2 ^ 2) = d) := by
  constructor
  · intro ra dec
    have key : (ra_dec_to_xyz ra dec d).1 ^ 2 + (ra_dec_to_xyz ra dec d).2.1 ^ 2 +
        (ra_dec_to_xyz ra dec d).2.2 ^ 2 = d ^ 2 := by
      simp only [ra_dec_to_xyz]
      have h1 := Real.sin_sq_add_cos_sq (dec * Real.pi / 180.0)
      have h2 := Real.sin_sq_add_cos_sq (ra * 15.0 * Real.pi / 180.0)
      linear_combination (d ^ 2 * Real.cos (dec * Real.pi / 180.0) ^ 2) * h2 + d ^ 2 * h1
    rw [key, Real.sqrt_sq hd]
  · intro u1 u2
    have key : (generate_random_position d u1 u2).1 ^ 2 +
        (generate_random_position d u1 u2).2.1 ^ 2 +
        (generate_random_position d u1 u2).2.2 ^ 2 = d ^ 2 := by
      simp only [generate_random_position]
      have h1 := Real.sin_sq_add_cos_sq (Real.arccos (1 - 2 * u2))
      have h2 := Real.sin_sq_add_cos_sq (2 * Real.pi * u1)
      linear_combination (d ^ 2 * Real.sin (Real.arccos (1 - 2 * u2)) ^ 2) * h2 +
        d ^ 2 * h1
    rw [key, Real.sqrt_sq hd]

/-- C9 witness at distance 1 with zero angles and draws. -/
theorem position_norm_witness :
    (0 : ℝ) ≤ 1 ∧
    Real.sqrt ((ra_dec_to_xyz 0 0 1).1 ^ 2 + (ra_dec_to_xyz 0 0 1).2.1 ^ 2 +
      (ra_dec_to_xyz 0 0 1).2.2 ^ 2) = 1 ∧
    Real.sqrt ((generate_random_position 1 0 0).1 ^ 2 +
      (generate_random_position 1 0 0).2.1 ^ 2 +
      (generate_random_position 1 0 0).2.2 ^ 2) = 1 :=
  ⟨by norm_num, (position_norm 1 (by norm_num)).1 0 0,
    (position_norm 1 (by norm_num)).2 0 0⟩

/-! ### C4: the Alpha Centauri companion scenario -/

/-- C4: processing the row `System="Alpha Centauri", Name="B",
Distance="1.34", Class="K1V"` after the row that establishes
`Alpha Centauri A` as the system primary yields, once the block closes at
end of input, exactly the companion-mapping entry
`Alpha Centauri B -> Alpha Centauri A`, for every draw stream. -/
theorem companion_scenario (gen : ℕ → ℝ) :
    runMapping gen c4lines = .ok [("Alpha Centauri B", "Alpha Centauri A")] := rfl

/-! ### C5: written companion mappings reference catalog names -/

/-- C5: every entry the mapping writer of `parse_all_1421_stars.py` emits
has its companion name and its primary name among the names of the final
catalog (entries with a dangling side are dropped by the filter). -/
theorem mapping_writer_members (stars : List Star) (m : List (String × String)) :
    ∀ p ∈ writeCompanionMapping stars m,
      p.1 ∈ stars.map Star.name ∧ p.2 ∈ stars.map Star.name := by
  intro p hp
  unfold writeCompanionMapping at hp
  rw [List.mem_filter, Bool.and_eq_true] at hp
  obtain ⟨-, h1, h2⟩ := hp
  constructor
  · simpa using h1
  · simpa using h2

/-- C5 witness: a two-star catalog with one surviving mapping entry. -/
theorem mapping_writer_members_witness :
    ("Alpha Centauri B", "Alpha Centauri A") ∈
      writeCompanionMapping [starPrimary, starCompanion]
        [("Alpha Centauri B", "Alpha Centauri A")] ∧
    "Alpha Centauri B" ∈ [starPrimary, starCompanion].map Star.name ∧
    "Alpha Centauri A" ∈ [starPrimary, starCompanion].map Star.name := by
  have hm : ("Alpha Centauri B", "Alpha Centauri A") ∈
      writeCompanionMapping [starPrimary, starCompanion]
        [("Alpha Centauri B", "Alpha Centauri A")] := by
    rw [show writeCompanionMapping [starPrimary, starCompanion]
        [("Alpha Centauri B", "Alpha Centauri A")]
        = [("Alpha Centauri B", "Alpha Centauri A")] from rfl]
    exact List.mem_singleton.mpr rfl
  exact ⟨hm, (mapping_writer_members _ _ _ hm).1, (mapping_writer_members _ _ _ hm).2⟩

/-! ### C1: the Sol invariant -/

theorem sortStars_perm (l : List Star) : List.Perm (sortStars l) l :=
  List.perm_insertionSort _ l

/-- C1 counterexample: on an input whose raw rows already contain two
`Sol` rows, the assembled catalog keeps both records, so it does not
contain exactly one record named `Sol` — the claim fails for inputs that
themselves name Sol. -/
theorem sol_invariant_cex : ¬ solInvariantHolds (runCatalog genZero linesTwoSol) := by
  intro h
  obtain ⟨cat, hcat, hlen⟩ :
      ∃ cat, runCatalog genZero linesTwoSol = .ok cat ∧
        (cat.filter fun s => s.name == "Sol").length =
          ((["Sol", "Sol"] : List String).filter fun n => n == "Sol").length := by
    cases hE : runLoop genZero linesTwoSol with
    | error e =>
      have h0 : postLoopNamesE genZero linesTwoSol = .ok ["Sol", "Sol"] := rfl
      rw [postLoopNamesE, hE] at h0
      exact absurd h0 (by simp [Except.map])
    | ok st =>
      have hn : (postLoop st).1.map Star.name = ["Sol", "Sol"] := by
        have h0 : postLoopNamesE genZero linesTwoSol = .ok ["Sol", "Sol"] := rfl
        rw [postLoopNamesE, hE] at h0
        simp only [Except.map, Except.ok.injEq] at h0
        exact h0
      have hany : ((postLoop st).1.any fun s => s.name == "Sol") = true := by
        rw [List.any_eq_true]
        have hmem : "Sol" ∈ (postLoop st).1.map Star.name := by rw [hn]; simp
        obtain ⟨s, hs, he⟩ := List.mem_map.mp hmem
        exact ⟨s, hs, by simp [he]⟩
      have haddSol : addSol (postLoop st).1 = (postLoop st).1 := by
        unfold addSol
        rw [hany]
        simp
      refine ⟨sortStars (addSol (postLoop st).1),
        by simp [runCatalog, runPipeline, hE, Except.map], ?_⟩
      rw [haddSol, ((sortStars_perm _).filter _).length_eq, ← hn, List.filter_map,
        List.length_map]
      congr 1
  have h1 := (h cat hcat).1
  rw [hlen] at h1
  exact absurd h1 (by decide)

/-- C1 (amended): whenever no parsed (and renamed) record is named `Sol`,
the assembled catalog contains exactly one record named `Sol` — the
inserted reference record at the origin `(0,0,0)`. When the raw input
itself contains Sol rows, the parsed records are kept as they are and the
invariant can fail (see the counterexample). -/
theorem sol_invariant_amended (gen : ℕ → ℝ) (lines : List String) (st : LoopState)
    (h : runLoop gen lines = .ok st)
    (hno : "Sol" ∉ (postLoop st).1.map Star.name) :
    runPipeline gen lines = .ok (sortStars (addSol (postLoop st).1), (postLoop st).2) ∧
    (sortStars (addSol (postLoop st).1)).filter (fun s => s.name == "Sol") = [solStar] := by
  refine ⟨by simp [runPipeline, h, Except.map], ?_⟩
  have hany : ((postLoop st).1.any fun s => s.name == "Sol") = false := by
    rw [List.any_eq_false]
    intro s hs hbeq
    exact hno (List.mem_map.mpr ⟨s, hs, by simpa using hbeq⟩)
  have haddSol : addSol (postLoop st).1 = solStar :: (postLoop st).1 := by
    unfold addSol
    rw [hany]
    rfl
  have hperm := (sortStars_perm (addSol (postLoop st).1)).filter
    (fun s => s.name == "Sol")
  rw [haddSol] at hperm ⊢
  have hfilter : (solStar :: (postLoop st).1).filter (fun s => s.name == "Sol")
      = [solStar] := by
    rw [List.filter_cons_of_pos (by rfl)]
    rw [List.filter_eq_nil_iff.mpr]
    intro s hs hbeq
    exact hno (List.mem_map.mpr ⟨s, hs, by simpa using hbeq⟩)
  rw [hfilter] at hperm
  exact hperm.eq_singleton

/-- C1 witness: a header-only input parses no stars, so the assembled
catalog is exactly the inserted Sol record. -/
theorem sol_invariant_amended_witness :
    runLoop genZero linesHeaderOnly = .ok initState ∧
    "Sol" ∉ (postLoop initState).1.map Star.name ∧
    (runPipeline genZero linesHeaderOnly =
        .ok (sortStars (addSol (postLoop initState).1), (postLoop initState).2) ∧
      (sortStars (addSol (postLoop initState).1)).filter (fun s => s.name == "Sol")
        = [solStar]) :=
  ⟨rfl, by simp [postLoop, initState, flushSystem, applySpecials, applyRenames],
    sol_invariant_amended genZero linesHeaderOnly initState rfl
      (by simp [postLoop, initState, flushSystem, applySpecials, applyRenames])⟩

/-! ### C10: the catalog is sorted by distance, stably -/

theorem filter_distEq_orderedInsert (c : ℝ) (x : Star) (l : List Star) :
    (List.orderedInsert (fun a b => distOrigin a ≤ distOrigin b) x l).filter
      (fun s => decide (distOrigin s = c))
    = if distOrigin x = c then
        x :: l.filter (fun s => decide (distOrigin s = c))
      else l.filter (fun s => decide (distOrigin s = c)) := by
  induction l with
  | nil =>
    by_cases hc : distOrigin x = c
    · rw [if_pos hc]
      simp [List.orderedInsert, hc]
    · rw [if_neg hc]
      simp [List.orderedInsert, hc]
  | cons y ys ih =>
    rw [List.orderedInsert]
    by_cases hxy : distOrigin x ≤ distOrigin y
    · rw [if_pos hxy]
      by_cases hc : distOrigin x = c
      · rw [if_pos hc, List.filter_cons_of_pos (by simp [hc])]
      · rw [if_neg hc, List.filter_cons_of_neg (by simp [hc])]
    · rw [if_neg hxy]
      have hylt : distOrigin y < distOrigin x := not_le.mp hxy
      by_cases hyc : distOrigin y = c
      · have hc : ¬ distOrigin x = c := by
          intro hc
          rw [hc, ← hyc] at hylt
          exact lt_irrefl _ hylt
        rw [if_neg hc, List.filter_cons_of_pos (by simp [hyc]),
          List.filter_cons_of_pos (by simp [hyc]), ih, if_neg hc]
      · rw [List.filter_cons_of_neg (by simp [hyc]),
          List.filter_cons_of_neg (by simp [hyc]), ih]

theorem filter_distEq_sortStars (c : ℝ) (l : List Star) :
    (sortStars l).filter (fun s => decide (distOrigin s = c))
    = l.filter (fun s => decide (distOrigin s = c)) := by
  induction l with
  | nil => rfl
  | cons x xs ih =>
    show ((List.insertionSort _ xs).orderedInsert _ x).filter _ = _
    rw [filter_distEq_orderedInsert]
    by_cases hc : distOrigin x = c
    · rw [if_pos hc, List.filter_cons_of_pos (by simp [hc])]
      exact congrArg (x :: ·) ih
    · rw [if_neg hc, List.filter_cons_of_neg (by simp [hc])]
      exact ih

/-- C10: the assembled catalog is sorted non-decreasing by Euclidean
distance from the origin, and the sort is stable: for every distance
value, the records at that distance appear in the same order as in the
pre-sort list (insertion order). -/
theorem catalog_sorted_stable (gen : ℕ → ℝ) (lines : List String) (st : LoopState)
    (h : runLoop gen lines = .ok st) :
    runPipeline gen lines = .ok (sortStars (addSol (postLoop st).1), (postLoop st).2) ∧
    List.Sorted (fun a b => distOrigin a ≤ distOrigin b)
      (sortStars (addSol (postLoop st).1)) ∧
    ∀ c : ℝ,
      (sortStars (addSol (postLoop st).1)).filter (fun s => decide (distOrigin s = c))
      = (addSol (postLoop st).1).filter (fun s => decide (distOrigin s = c)) :=
  ⟨by simp [runPipeline, h, Except.map],
    List.sorted_insertionSort _ _,
    fun c => filter_distEq_sortStars c _⟩

/-- C10 witness at the header-only input. -/
theorem catalog_sorted_stable_witness :
    runLoop genZero linesHeaderOnly = .ok initState ∧
    (runPipeline genZero linesHeaderOnly =
        .ok (sortStars (addSol (postLoop initState).1), (postLoop initState).2) ∧
      List.Sorted (fun a b => distOrigin a ≤ distOrigin b)
        (sortStars (addSol (postLoop initState).1)) ∧
      ∀ c : ℝ,
        (sortStars (addSol (postLoop initState).1)).filter
          (fun s => decide (distOrigin s = c))
        = (addSol (postLoop initState).1).filter (fun s => decide (distOrigin s = c))) :=
  ⟨rfl, catalog_sorted_stable genZero linesHeaderOnly initState rfl⟩

/-! ### C7 and C8: stellar property synthesis -/

theorem spec_facts_of_mem (ch : Char) (r : SpecRange)
    (h : spectral_data ch = some r) : SpecFacts r := by
  unfold spectral_data at h
  split at h <;>
    first
    | exact Option.noConfusion h
    | (injection h with h
       subst h
       exact ⟨by norm_num [rowM], by norm_num [rowM], by norm_num [rowM],
         by norm_num [rowM], by norm_num [rowM], by norm_num [rowM]⟩)

theorem specRangeOf_facts (s : String) : SpecFacts (specRangeOf s) := by
  unfold specRangeOf
  cases heq : spectral_data (spectralTypeOf (effClass s)) with
  | none =>
    simp only [Option.getD]
    exact ⟨by norm_num [rowM], by norm_num [rowM], by norm_num [rowM],
      by norm_num [rowM], by norm_num [rowM], by norm_num [rowM]⟩
  | some r =>
    simp only [Option.getD]
    exact spec_facts_of_mem _ r heq

theorem interp_mem (lo hi u : ℝ) (hlohi : lo ≤ hi) (h0 : 0 ≤ u) (h1 : u ≤ 1) :
    lo ≤ lo + (hi - lo) * u ∧ lo + (hi - lo) * u ≤ hi := by
  constructor <;> nlinarith

theorem reverse_interp_mem (lo hi u : ℝ) (hlohi : lo ≤ hi) (h0 : 0 ≤ u) (h1 : u ≤ 1) :
    lo ≤ hi + (lo - hi) * u ∧ hi + (lo - hi) * u ≤ hi := by
  constructor <;> nlinarith

theorem pyInt_mem (lo hi : ℤ) (x : ℝ) (h0 : 0 ≤ lo) (hlo : (lo : ℝ) ≤ x)
    (hhi : x ≤ (hi : ℝ)) : lo ≤ pyInt x ∧ pyInt x ≤ hi := by
  have hx0 : (0 : ℝ) ≤ x := le_trans (by exact_mod_cast h0) hlo
  unfold pyInt
  rw [if_pos hx0]
  exact ⟨Int.le_floor.mpr hlo, by exact_mod_cast (Int.floor_le x).trans hhi⟩

theorem rpow_interp_mem (lo hi f : ℝ) (hlo : 0 < lo) (hle : lo ≤ hi)
    (h0 : 0 ≤ f) (h1 : f ≤ 1) :
    lo ≤ lo * (hi / lo) ^ f ∧ lo * (hi / lo) ^ f ≤ hi := by
  have hbase : (1 : ℝ) ≤ hi / lo := (one_le_div hlo).mpr hle
  constructor
  · have h := Real.rpow_le_rpow_of_exponent_le hbase h0
    rw [Real.rpow_zero] at h
    exact le_mul_of_one_le_right hlo.le h
  · have h := Real.rpow_le_rpow_of_exponent_le hbase h1
    rw [Real.rpow_one] at h
    have hne : lo ≠ 0 := ne_of_gt hlo
    calc lo * (hi / lo) ^ f ≤ lo * (hi / lo) :=
      mul_le_mul_of_nonneg_left h hlo.le
    _ = hi := mul_div_cancel₀ hi hne

/-- C7: for every spectral-class string and draws in `[0,1]`, each of the
four synthesized values lies within the inclusive table range of the
spectral letter the code selects for that class — in the random-draw
branch and in the subclass-interpolation branch alike. -/
theorem synthesize_in_range (c : String) (u1 u2 u3 u4 : ℝ)
    (hu1 : 0 ≤ u1) (hu1h : u1 ≤ 1) (hu2 : 0 ≤ u2) (hu2h : u2 ≤ 1)
    (hu3 : 0 ≤ u3) (hu3h : u3 ≤ 1) (hu4 : 0 ≤ u4) (hu4h : u4 ≤ 1) :
    (((specRangeOf c).massLo : ℝ) ≤ (generate_stellar_properties c u1 u2 u3 u4).1 ∧
      (generate_stellar_properties c u1 u2 u3 u4).1 ≤ ((specRangeOf c).massHi : ℝ)) ∧
    ((specRangeOf c).tempLo ≤ (generate_stellar_properties c u1 u2 u3 u4).2.1 ∧
      (generate_stellar_properties c u1 u2 u3 u4).2.1 ≤ (specRangeOf c).tempHi) ∧
    (((specRangeOf c).lumLo : ℝ) ≤ (generate_stellar_properties c u1 u2 u3 u4).2.2.1 ∧
      (generate_stellar_properties c u1 u2 u3 u4).2.2.1 ≤ ((specRangeOf c).lumHi : ℝ)) ∧
    (((specRangeOf c).magLo : ℝ) ≤ (generate_stellar_properties c u1 u2 u3 u4).2.2.2 ∧
      (generate_stellar_properties c u1 u2 u3 u4).2.2.2 ≤ ((specRangeOf c).magHi : ℝ)) := by
  obtain ⟨hm, ht, ht0, hl0, hl, hg⟩ := specRangeOf_facts c
  have hmR : ((specRangeOf c).massLo : ℝ) ≤ ((specRangeOf c).massHi : ℝ) := by
    exact_mod_cast hm
  have htR : (((specRangeOf c).tempLo : ℤ) : ℝ) ≤ (((specRangeOf c).tempHi : ℤ) : ℝ) := by
    exact_mod_cast ht
  have ht0R : (0 : ℝ) ≤ (((specRangeOf c).tempLo : ℤ) : ℝ) := by exact_mod_cast ht0
  have hl0R : (0 : ℝ) < ((specRangeOf c).lumLo : ℝ) := by exact_mod_cast hl0
  have hlR : ((specRangeOf c).lumLo : ℝ) ≤ ((specRangeOf c).lumHi : ℝ) := by
    exact_mod_cast hl
  have hgR : ((specRangeOf c).magLo : ℝ) ≤ ((specRangeOf c).magHi : ℝ) := by
    exact_mod_cast hg
  rcases hsub : subclassOf (effClass c) with _ | sub
  · simp only [generate_stellar_properties, hsub]
    exact ⟨interp_mem _ _ _ hmR hu1 hu1h,
      pyInt_mem _ _ _ ht0 (interp_mem _ _ _ htR hu2 hu2h).1 (interp_mem _ _ _ htR hu2 hu2h).2,
      interp_mem _ _ _ hlR hu3 hu3h,
      interp_mem _ _ _ hgR hu4 hu4h⟩
  · by_cases h9 : sub.ble ⟨9, 0⟩ = true
    · have hsub9 : sub.toRat ≤ 9 := by
        have := (Dec.ble_iff sub ⟨9, 0⟩).mp h9
        rwa [show Dec.toRat ⟨9, 0⟩ = 9 by norm_num [Dec.toRat_mk]] at this
      have hsub0 : (0 : ℚ) ≤ sub.toRat := Dec.toRat_nonneg sub
      have hf0 : (0 : ℝ) ≤ (9 - ((sub.toRat : ℚ) : ℝ)) / 9 := by
        have : ((sub.toRat : ℚ) : ℝ) ≤ 9 := by exact_mod_cast hsub9
        linarith
      have hf1 : (9 - ((sub.toRat : ℚ) : ℝ)) / 9 ≤ 1 := by
        have : (0 : ℝ) ≤ ((sub.toRat : ℚ) : ℝ) := by exact_mod_cast hsub0
        linarith
      simp only [generate_stellar_properties, hsub, h9, if_true]
      exact ⟨interp_mem _ _ _ hmR hf0 hf1,
        pyInt_mem _ _ _ ht0 (interp_mem _ _ _ htR hf0 hf1).1 (interp_mem _ _ _ htR hf0 hf1).2,
        rpow_interp_mem _ _ _ hl0R hlR hf0 hf1,
        reverse_interp_mem _ _ _ hgR hf0 hf1⟩
    · simp only [generate_stellar_properties, hsub, h9, if_false, Bool.false_eq_true]
      exact ⟨interp_mem _ _ _ hmR hu1 hu1h,
        pyInt_mem _ _ _ ht0 (interp_mem _ _ _ htR hu2 hu2h).1 (interp_mem _ _ _ htR hu2 hu2h).2,
        interp_mem _ _ _ hlR hu3 hu3h,
        interp_mem _ _ _ hgR hu4 hu4h⟩

/-- C7 witness at class `G2V` with all draws `1/2`. -/
theorem synthesize_in_range_witness :
    ((0 : ℝ) ≤ 1 / 2 ∧ (1 / 2 : ℝ) ≤ 1) ∧
    ((((specRangeOf "G2V").massLo : ℝ) ≤
        (generate_stellar_properties "G2V" (1 / 2) (1 / 2) (1 / 2) (1 / 2)).1 ∧
      (generate_stellar_properties "G2V" (1 / 2) (1 / 2) (1 / 2) (1 / 2)).1 ≤
        ((specRangeOf "G2V").massHi : ℝ)) ∧
    ((specRangeOf "G2V").tempLo ≤
        (generate_stellar_properties "G2V" (1 / 2) (1 / 2) (1 / 2) (1 / 2)).2.1 ∧
      (generate_stellar_properties "G2V" (1 / 2) (1 / 2) (1 / 2) (1 / 2)).2.1 ≤
        (specRangeOf "G2V").tempHi) ∧
    (((specRangeOf "G2V").lumLo : ℝ) ≤
        (generate_stellar_properties "G2V" (1 / 2) (1 / 2) (1 / 2) (1 / 2)).2.2.1 ∧
      (generate_stellar_properties "G2V" (1 / 2) (1 / 2) (1 / 2) (1 / 2)).2.2.1 ≤
        ((specRangeOf "G2V").lumHi : ℝ)) ∧
    (((specRangeOf "G2V").magLo : ℝ) ≤
        (generate_stellar_properties "G2V" (1 / 2) (1 / 2) (1 / 2) (1 / 2)).2.2.2 ∧
      (generate_stellar_properties "G2V" (1 / 2) (1 / 2) (1 / 2) (1 / 2)).2.2.2 ≤
        ((specRangeOf "G2V").magHi : ℝ))) :=
  ⟨⟨by norm_num, by norm_num⟩,
    synthesize_in_range "G2V" (1 / 2) (1 / 2) (1 / 2) (1 / 2)
      (by norm_num) (by norm_num) (by norm_num) (by norm_num)
      (by norm_num) (by norm_num) (by norm_num) (by norm_num)⟩

/-- C8 (amended): when the class string carries a numeric subclass of
value at most 9, the synthesized tuple is determined solely by the class
string with `factor = (9 - subclass) / 9`: mass and temperature
interpolate linearly from the low bound toward the high bound as the
factor increases, luminosity interpolates geometrically as
`low * (high / low) ^ factor`, and absolute magnitude interpolates in the
reverse direction starting from the high (dimmest) end — factor 0 yields
the class's highest magnitude, factor 1 its lowest (brightest). -/
theorem subclass_interpolation (c : String) (sub : Dec)
    (hs : subclassOf (effClass c) = some sub) (h9 : sub.ble ⟨9, 0⟩ = true) :
    ∀ u1 u2 u3 u4 : ℝ,
      generate_stellar_properties c u1 u2 u3 u4 =
      ( ((specRangeOf c).massLo : ℝ) +
          (((specRangeOf c).massHi : ℝ) - ((specRangeOf c).massLo : ℝ)) *
            ((9 - ((sub.toRat : ℚ) : ℝ)) / 9),
        pyInt (((specRangeOf c).tempLo : ℝ) +
          (((specRangeOf c).tempHi : ℝ) - ((specRangeOf c).tempLo : ℝ)) *
            ((9 - ((sub.toRat : ℚ) : ℝ)) / 9)),
        ((specRangeOf c).lumLo : ℝ) *
          (((specRangeOf c).lumHi : ℝ) / ((specRangeOf c).lumLo : ℝ)) ^
            ((9 - ((sub.toRat : ℚ) : ℝ)) / 9),
        ((specRangeOf c).magHi : ℝ) +
          (((specRangeOf c).magLo : ℝ) - ((specRangeOf c).magHi : ℝ)) *
            ((9 - ((sub.toRat : ℚ) : ℝ)) / 9) ) := by
  intro u1 u2 u3 u4
  simp only [generate_stellar_properties, hs, h9, if_true]

/-- C8 witness at class `G2V` (subclass 2). -/
theorem subclass_interpolation_witness :
    subclassOf (effClass "G2V") = some ⟨2, 0⟩ ∧
    (⟨2, 0⟩ : Dec).ble ⟨9, 0⟩ = true ∧
    (∀ u1 u2 u3 u4 : ℝ,
      generate_stellar_properties "G2V" u1 u2 u3 u4 =
      ( ((specRangeOf "G2V").massLo : ℝ) +
          (((specRangeOf "G2V").massHi : ℝ) - ((specRangeOf "G2V").massLo : ℝ)) *
            ((9 - (((⟨2, 0⟩ : Dec).toRat : ℚ) : ℝ)) / 9),
        pyInt (((specRangeOf "G2V").tempLo : ℝ) +
          (((specRangeOf "G2V").tempHi : ℝ) - ((specRangeOf "G2V").tempLo : ℝ)) *
            ((9 - (((⟨2, 0⟩ : Dec).toRat : ℚ) : ℝ)) / 9)),
        ((specRangeOf "G2V").lumLo : ℝ) *
          (((specRangeOf "G2V").lumHi : ℝ) / ((specRangeOf "G2V").lumLo : ℝ)) ^
            ((9 - (((⟨2, 0⟩ : Dec).toRat : ℚ) : ℝ)) / 9),
        ((specRangeOf "G2V").magHi : ℝ) +
          (((specRangeOf "G2V").magLo : ℝ) - ((specRangeOf "G2V").magHi : ℝ)) *
            ((9 - (((⟨2, 0⟩ : Dec).toRat : ℚ) : ℝ)) / 9) )) :=
  ⟨rfl, rfl, subclass_interpolation "G2V" ⟨2, 0⟩ rfl rfl⟩

/-- C8 counterexample: for `G9V` the factor is 0 and the synthesized
absolute magnitude is 6 — the G range's highest (dimmest) magnitude, not
the claimed brightest (lowest) end 4.5. -/
theorem magnitude_direction_cex :
    (generate_stellar_properties "G9V" 0 0 0 0).2.2.2 = 6 ∧
    (specRangeOf "G9V").magLo = 4.5 ∧
    (specRangeOf "G9V").magHi = 6.0 ∧
    (6 : ℝ) ≠ 4.5 := by
  refine ⟨?_, rfl, rfl, by norm_num⟩
  have hs : subclassOf (effClass "G9V") = some ⟨9, 0⟩ := rfl
  have h9 : (⟨9, 0⟩ : Dec).ble ⟨9, 0⟩ = true := rfl
  simp only [generate_stellar_properties, hs, h9, if_true]
  rw [show (specRangeOf "G9V").magHi = 6.0 from rfl,
    show (specRangeOf "G9V").magLo = 4.5 from rfl,
    show Dec.toRat ⟨9, 0⟩ = 9 by norm_num [Dec.toRat_mk]]
  push_cast
  norm_num

/-! ### C6: the procedural fill loop -/

/-- C6 (amended): when fewer than the 1400-star target were parsed, the
fill loop appends filler records until the catalog holds exactly 1400;
each filler's drawn radial distance is `u ^ 0.33 * 80` (the code uses the
exponent `0.33`, an approximation of a cube root, not an exact cube
root), which is strictly below the 80 light-year maximum for every draw
`u` in `[0, 1)`. -/
theorem procedural_fill_bounds (stars : List Star) (gen : ℕ → ℝ)
    (h : stars.length < 1400) :
    (proceduralFill stars gen).length = 1400 ∧
    ∀ i : ℕ, 0 ≤ gen (9 * i) → gen (9 * i) < 1 → fillerDistance i gen < 80 := by
  constructor
  · unfold proceduralFill
    rw [if_pos h, List.length_append, List.length_map, List.length_range]
    omega
  · intro i h0 h1
    unfold fillerDistance
    have hp : gen (9 * i) ^ (0.33 : ℝ) < 1 := Real.rpow_lt_one h0 h1 (by norm_num)
    nlinarith [hp]

/-- C6 witness: an empty parse gets filled to exactly 1400 records. -/
theorem procedural_fill_bounds_witness :
    ([] : List Star).length < 1400 ∧
    ((proceduralFill [] genZero).length = 1400 ∧
      ∀ i : ℕ, 0 ≤ genZero (9 * i) → genZero (9 * i) < 1 →
        fillerDistance i genZero < 80) :=
  ⟨by norm_num, procedural_fill_bounds [] genZero (by norm_num)⟩

/-- C6 counterexample: at the draw `u = 1/2` the drawn filler distance
`u ^ 0.33 * 80` differs from the claimed `cube_root(u) * 80`, because the
exponent in the code is `0.33`, not `1/3`. -/
theorem cube_root_cex :
    fillerDistance 0 (fun _ => 1 / 2) ≠ ((1 : ℝ) / 2) ^ ((1 : ℝ) / 3) * 80 := by
  show ((1 : ℝ) / 2) ^ (0.33 : ℝ) * 80 ≠ ((1 : ℝ) / 2) ^ ((1 : ℝ) / 3) * 80
  have hlt : ((1 : ℝ) / 2) ^ ((1 : ℝ) / 3) < ((1 : ℝ) / 2) ^ (0.33 : ℝ) :=
    Real.rpow_lt_rpow_of_exponent_gt (by norm_num) (by norm_num) (by norm_num)
  have h80 : ((1 : ℝ) / 2) ^ ((1 : ℝ) / 3) * 80 < ((1 : ℝ) / 2) ^ (0.33 : ℝ) * 80 :=
    mul_lt_mul_of_pos_right hlt (by norm_num)
  exact ne_of_gt h80

end MilkyWay
